import Mathlib

/-!
Shallow embedding of the WebSocket broadcast relay in `src/websockets/app.js`.

The relay keeps a registry (a JS `Map`, embedded as an association list in
insertion order) from auto-incremented connection ids to WebSocket transports.
Inbound frames are parsed with `JSON.parse`; a frame whose parsed envelope has
`action === 'sendmessage'` and a truthy `data` field is broadcast: the `data`
value is sent verbatim to every registered transport whose `readyState` is
`OPEN`, transports that are not open are deleted from the registry during the
same pass, and success/failure counters are accumulated and logged.
Side effects (frames handed to `clientWs.send`) are embedded as an explicit
event log of `(recipientId, frame)` pairs.
-/

/-- A JSON value, as produced by `JSON.parse`.  Numbers are embedded as
integers: no claim about this program depends on non-integral numerics. -/
inductive Json where
  | null : Json
  | bool : Bool → Json
  | num : Int → Json
  | str : String → Json
  | arr : List Json → Json
  | obj : List (String × Json) → Json
  deriving Repr

/-- A WebSocket transport as the relay observes it: its `readyState`, and
whether a `send` call on it would throw. -/
structure WS where
  readyState : Nat
  sendFails : Bool
  deriving DecidableEq, Repr

/-- `WebSocket.OPEN` in the `ws` library. -/
def wsOPEN : Nat := 1

/-- First-match field lookup in a parsed JSON object (`JSON.parse` output has
unique keys, the later duplicate overriding the earlier at parse time). -/
def lookupField : List (String × Json) → String → Option Json
  | [], _ => none
  | (k, v) :: rest, key => if k = key then some v else lookupField rest key

/-- JavaScript property access `msg.key` on a non-null value: a field of an
object, `undefined` (`none`) on anything else (numbers, strings, booleans and
arrays do not throw, they just have no such property). -/
def jsGet (msg : Json) (key : String) : Option Json :=
  match msg with
  | Json.obj fields => lookupField fields key
  | _ => none

/-- JavaScript truthiness of `msg.data`, where `none` is `undefined`. -/
def jsTruthy : Option Json → Bool
  | none => false
  | some Json.null => false
  | some (Json.bool b) => b
  | some (Json.num n) => n != 0
  | some (Json.str s) => s != ""
  | some (Json.arr _) => true
  | some (Json.obj _) => true

/-- The strict comparison `parsedMessage.action === 'sendmessage'`. -/
def isSendAction : Option Json → Bool
  | some (Json.str s) => s = "sendmessage"
  | _ => false

/-- Result of one broadcast pass: the registry after the pass, the two
counters of the summary log line, and the frames handed to `send`
(recipient connection id paired with the frame content), in send order. -/
structure BroadcastResult where
  connections : List (Nat × WS)
  successCount : Nat
  failCount : Nat
  sentFrames : List (Nat × Json)
  deriving Repr

/-- The `connections.forEach` broadcast pass of `app.js` (lines 45-62): for
each `(clientId, clientWs)` in registry order, an open transport is sent the
payload (counting a success, or a failure if `send` throws, in which case the
entry stays registered), and a non-open transport is deleted from the registry
and counted as a failure.  Deleting the entry under iteration does not disturb
a JS `Map.forEach` walk, so the pass is structural recursion on the list. -/
def broadcast (payload : Json) : List (Nat × WS) → BroadcastResult
  | [] => { connections := [], successCount := 0, failCount := 0, sentFrames := [] }
  | (clientId, clientWs) :: rest =>
    let r := broadcast payload rest
    if clientWs.readyState = wsOPEN then
      if clientWs.sendFails then
        { connections := (clientId, clientWs) :: r.connections,
          successCount := r.successCount, failCount := r.failCount + 1,
          sentFrames := r.sentFrames }
      else
        { connections := (clientId, clientWs) :: r.connections,
          successCount := r.successCount + 1, failCount := r.failCount,
          sentFrames := (clientId, payload) :: r.sentFrames }
    else
      { connections := r.connections, successCount := r.successCount,
        failCount := r.failCount + 1, sentFrames := r.sentFrames }

/-- `clientWs.readyState === WebSocket.OPEN`. -/
def isOpen (ws : WS) : Bool := ws.readyState = wsOPEN

/-- A transport to which a broadcast `send` completes without throwing. -/
def sendSucceeds (ws : WS) : Bool := isOpen ws && !ws.sendFails

/-- Closed form of one broadcast pass: survivors are exactly the open entries,
the success counter counts the entries whose `send` went through, the failure
counter counts the rest, and the frame log pairs each successful recipient
with the payload. -/
theorem broadcast_eq (payload : Json) (conns : List (Nat × WS)) :
    broadcast payload conns =
      { connections := conns.filter (fun p => isOpen p.2),
        successCount := (conns.filter (fun p => sendSucceeds p.2)).length,
        failCount := (conns.filter (fun p => !sendSucceeds p.2)).length,
        sentFrames :=
          (conns.filter (fun p => sendSucceeds p.2)).map (fun p => (p.1, payload)) } := by
  induction conns with
  | nil => rfl
  | cons hd tl ih =>
    obtain ⟨id, ws⟩ := hd
    by_cases hopen : ws.readyState = wsOPEN
    · by_cases hfail : ws.sendFails = true
      · simp [broadcast, ih, List.filter_cons, isOpen, sendSucceeds, hopen, hfail]
      · simp only [Bool.not_eq_true] at hfail
        simp [broadcast, ih, List.filter_cons, isOpen, sendSucceeds, hopen, hfail]
    · simp [broadcast, ih, List.filter_cons, isOpen, sendSucceeds, hopen]



/-- Outcome of the message handler observed through its log lines: the catch
branch (`[Error] Error processing message`), the unknown-format warning
branch, or a completed broadcast with its summary counters and frame log. -/
inductive MsgOutcome where
  | thrown : MsgOutcome
  | warning : MsgOutcome
  | broadcasted : Nat → Nat → List (Nat × Json) → MsgOutcome
  deriving Repr

/-- Whether a parsed value is JavaScript `null` (property access on it
throws a `TypeError`). -/
def jsIsNull : Json → Bool
  | Json.null => true
  | _ => false

/-- The body of the `try` block in `ws.on('message')` (lines 32-67).  Its
input is the outcome of `JSON.parse(message)` — `Except.error` when the raw
frame is not valid JSON.  Property access on a parsed `null` throws a
`TypeError`; on any other parsed value `parsedMessage.action` and
`parsedMessage.data` are plain (possibly `undefined`) reads, and the
broadcast runs exactly when `action === 'sendmessage'` and `data` is truthy. -/
def onMessageTry (parsed : Except String Json) (conns : List (Nat × WS)) :
    Except String (List (Nat × WS) × MsgOutcome) :=
  match parsed with
  | Except.error e => Except.error e
  | Except.ok msg =>
    if jsIsNull msg then Except.error "TypeError"
    else match jsGet msg "data" with
    | some d =>
      if isSendAction (jsGet msg "action") && jsTruthy (some d) then
        let r := broadcast d conns
        Except.ok (r.connections, MsgOutcome.broadcasted r.successCount r.failCount r.sentFrames)
      else Except.ok (conns, MsgOutcome.warning)
    | none => Except.ok (conns, MsgOutcome.warning)

/-- The full `ws.on('message')` handler: the `try` body under its `catch`,
which logs the error and returns normally, leaving the registry untouched. -/
def onMessage (parsed : Except String Json) (conns : List (Nat × WS)) :
    List (Nat × WS) × MsgOutcome :=
  match onMessageTry parsed conns with
  | Except.error _ => (conns, MsgOutcome.thrown)
  | Except.ok r => r

/-- Whether the handler body completed without throwing. -/
def exceptOk {α : Type} : Except String α → Bool
  | Except.ok _ => true
  | Except.error _ => false

/-- The frames an outcome delivered. -/
def outcomeFrames : MsgOutcome → List (Nat × Json)
  | MsgOutcome.broadcasted _ _ fr => fr
  | _ => []

/-- Whether an outcome performed a broadcast. -/
def isBroadcastOutcome : MsgOutcome → Bool
  | MsgOutcome.broadcasted _ _ _ => true
  | _ => false

/-- The module-level mutable state of `app.js`: the `connections` map (in
insertion order) and `connectionIdCounter`. -/
structure ServerState where
  connections : List (Nat × WS)
  connectionIdCounter : Nat
  deriving DecidableEq, Repr

/-- State at process start: empty map, counter 0. -/
def initialState : ServerState := { connections := [], connectionIdCounter := 0 }

/-- The `wss.on('connection')` handler (lines 19-26): allocate
`++connectionIdCounter` and insert the transport under the new id (a fresh
key, so `Map.set` appends in iteration order).  Returns the new state and the
assigned connection id. -/
def onConnection (ws : WS) (st : ServerState) : ServerState × Nat :=
  let connectionId := st.connectionIdCounter + 1
  ({ connections := st.connections ++ [(connectionId, ws)],
     connectionIdCounter := connectionId }, connectionId)

/-- Accept an arriving sequence of transports, in order. -/
def acceptAll (wss : List WS) (st : ServerState) : ServerState :=
  wss.foldl (fun s w => (onConnection w s).1) st

/-- The `ws.on('close')` handler (lines 76-79): `connections.delete(connectionId)`. -/
def onClose (connectionId : Nat) (conns : List (Nat × WS)) : List (Nat × WS) :=
  conns.filter (fun p => !(p.1 = connectionId : Bool))

/-- The `ws.on('error')` handler (lines 84-88): logs, then performs the same
`connections.delete(connectionId)` as the close handler. -/
def onWsError (connectionId : Nat) (conns : List (Nat × WS)) : List (Nat × WS) :=
  conns.filter (fun p => !(p.1 = connectionId : Bool))

/-- In a registry with `Nodup` keys (the `Map` invariant), a key determines
its transport. -/
theorem key_unique {conns : List (Nat × WS)} (hnodup : (conns.map Prod.fst).Nodup)
    {id : Nat} {ws ws' : WS} (h1 : (id, ws) ∈ conns) (h2 : (id, ws') ∈ conns) :
    ws = ws' := by
  induction conns with
  | nil => cases h1
  | cons hd tl ih =>
    simp only [List.map_cons, List.nodup_cons] at hnodup
    rcases List.mem_cons.mp h1 with h1 | h1 <;> rcases List.mem_cons.mp h2 with h2 | h2
    · rw [← h1] at h2
      exact congrArg Prod.snd h2.symm
    · exact absurd (List.mem_map.mpr ⟨(id, ws'), h2, by rw [← h1]⟩) hnodup.1
    · exact absurd (List.mem_map.mpr ⟨(id, ws), h1, by rw [← h2]⟩) hnodup.1
    · exact ih hnodup.2 h1 h2

/-- C1 (amended): with every registered transport open (and none of their
sends throwing), a `sendmessage` envelope with a truthy payload `P` arriving
on any connection leaves the registry as it was and delivers exactly one
frame to every registered connection — the sender included — whose content is
the `data` value `P` itself, not the envelope; the summary counts N successes
and 0 failures.  (A falsy payload triggers no broadcast at all; see the
counterexample above the C2 witness.) -/
theorem broadcast_fanout_all_open (P : Json) (conns : List (Nat × WS))
    (hopen : ∀ p ∈ conns, p.2.readyState = wsOPEN)
    (hok : ∀ p ∈ conns, p.2.sendFails = false)
    (hP : jsTruthy (some P) = true) :
    onMessage (Except.ok (Json.obj [("action", Json.str "sendmessage"), ("data", P)])) conns =
      (conns, MsgOutcome.broadcasted conns.length 0 (conns.map (fun p => (p.1, P)))) := by
  have hsucc : conns.filter (fun p => sendSucceeds p.2) = conns := by
    rw [List.filter_eq_self]
    intro p hp
    simp [sendSucceeds, isOpen, hopen p hp, hok p hp]
  have hopenf : conns.filter (fun p => isOpen p.2) = conns := by
    rw [List.filter_eq_self]
    intro p hp
    simp [isOpen, hopen p hp]
  have hfailf : (conns.filter (fun p => !sendSucceeds p.2)).length = 0 := by
    have := List.length_eq_length_filter_add (l := conns) (fun p => sendSucceeds p.2)
    rw [hsucc] at this
    omega
  simp only [onMessage, onMessageTry, jsIsNull, jsGet, lookupField, isSendAction, hP,
    String.reduceEq, reduceIte, decide_True, Bool.true_and, Bool.and_self, if_true,
    broadcast_eq, hsucc, hopenf, hfailf]
  rfl

/-- C2: a registered connection whose transport is not open at broadcast time
receives no frame during the pass, is removed from the registry synchronously
during that very pass (no entry under its id survives), and its removal is
counted in the failure counter. -/
theorem broadcast_prunes_closed (P : Json) (conns : List (Nat × WS)) (id : Nat) (ws : WS)
    (hmem : (id, ws) ∈ conns) (hclosed : ws.readyState ≠ wsOPEN)
    (hnodup : (conns.map Prod.fst).Nodup) :
    (∀ p ∈ (broadcast P conns).connections, p.1 ≠ id) ∧
    (∀ q ∈ (broadcast P conns).sentFrames, q.1 ≠ id) ∧
    1 ≤ (broadcast P conns).failCount := by
  rw [broadcast_eq]
  refine ⟨?_, ?_, ?_⟩
  · rintro ⟨pid, pws⟩ hp rfl
    rw [List.mem_filter] at hp
    have : pws = ws := key_unique hnodup hp.1 hmem
    rw [this] at hp
    simp [isOpen, hclosed] at hp
  · rintro ⟨qid, qd⟩ hq rfl
    simp only [List.mem_map] at hq
    obtain ⟨⟨pid, pws⟩, hpmem, hpeq⟩ := hq
    rw [List.mem_filter] at hpmem
    obtain ⟨rfl, rfl⟩ := Prod.mk.injEq .. ▸ hpeq
    have : pws = ws := key_unique hnodup hpmem.1 hmem
    rw [this] at hpmem
    simp [sendSucceeds, isOpen, hclosed] at hpmem
  · refine List.length_pos_of_mem (a := (id, ws)) ?_
    rw [List.mem_filter]
    exact ⟨hmem, by simp [sendSucceeds, isOpen, hclosed]⟩

/-- Witness for C1 at the spec's first scenario: three open clients, payload
`"hello"`, everyone (sender included) receives `hello`; success=3, failure=0. -/
theorem broadcast_fanout_all_open_witness :
    onMessage
        (Except.ok (Json.obj [("action", Json.str "sendmessage"), ("data", Json.str "hello")]))
        [(1, WS.mk 1 false), (2, WS.mk 1 false), (3, WS.mk 1 false)] =
      ([(1, WS.mk 1 false), (2, WS.mk 1 false), (3, WS.mk 1 false)],
        MsgOutcome.broadcasted 3 0
          [(1, Json.str "hello"), (2, Json.str "hello"), (3, Json.str "hello")]) :=
  broadcast_fanout_all_open (Json.str "hello")
    [(1, WS.mk 1 false), (2, WS.mk 1 false), (3, WS.mk 1 false)]
    (by decide) (by decide) rfl

/-- C1 counterexample: with two open connections registered, a
`sendmessage` envelope whose payload is present but falsy (the number 0)
triggers no broadcast at all — no registered connection receives any frame —
so the fan-out guarantee does not hold for every payload P. -/
theorem broadcast_fanout_counterexample :
    onMessage
        (Except.ok (Json.obj [("action", Json.str "sendmessage"), ("data", Json.num 0)]))
        [(1, WS.mk 1 false), (2, WS.mk 1 false)]
      = ([(1, WS.mk 1 false), (2, WS.mk 1 false)], MsgOutcome.warning) := rfl

/-- Witness for C2: broadcasting to a registry holding one open and one
already-closed client counts at least one failure. -/
theorem broadcast_prunes_closed_witness :
    1 ≤ (broadcast (Json.str "hi") [(1, WS.mk 1 false), (3, WS.mk 3 false)]).failCount :=
  (broadcast_prunes_closed (Json.str "hi") [(1, WS.mk 1 false), (3, WS.mk 3 false)]
    3 (WS.mk 3 false) (by decide) (by decide) (by decide)).2.2

/-- A non-null parsed value, characterised through `jsIsNull`. -/
theorem jsIsNull_eq_false {msg : Json} : jsIsNull msg = false ↔ msg ≠ Json.null := by
  cases msg <;> simp [jsIsNull]

/-- C3 counterexample: an envelope whose `data` field is present but equals
the empty string (a falsy value) is dropped with a warning — no broadcast —
even though `data` is present; and a frame parsing to JSON `null` lands in
the catch branch, not the warning branch. -/
theorem sendmessage_presence_counterexample :
    jsGet (Json.obj [("action", Json.str "sendmessage"), ("data", Json.str "")]) "data"
        = some (Json.str "") ∧
    (onMessage
        (Except.ok (Json.obj [("action", Json.str "sendmessage"), ("data", Json.str "")]))
        [(1, WS.mk 1 false)]) = ([(1, WS.mk 1 false)], MsgOutcome.warning) ∧
    (onMessage (Except.ok Json.null) [(1, WS.mk 1 false)])
        = ([(1, WS.mk 1 false)], MsgOutcome.thrown) :=
  ⟨rfl, rfl, rfl⟩

/-- C3 (amended): OnMessage triggers a broadcast iff the frame parses to a
non-null JSON value whose `action` is the string `"sendmessage"` and whose
`data` field is truthy (present and not `null`, `false`, `0` or `""`); every
other successfully parsed non-null envelope is logged as a warning and
dropped, leaving the registry unchanged and sending no frame. -/
theorem sendmessage_requires_truthy_data (parsed : Except String Json)
    (conns : List (Nat × WS)) :
    (isBroadcastOutcome (onMessage parsed conns).2 = true ↔
      ∃ msg, parsed = Except.ok msg ∧ msg ≠ Json.null ∧
        isSendAction (jsGet msg "action") = true ∧ jsTruthy (jsGet msg "data") = true) ∧
    (∀ msg, parsed = Except.ok msg → msg ≠ Json.null →
      ¬(isSendAction (jsGet msg "action") = true ∧ jsTruthy (jsGet msg "data") = true) →
      onMessage parsed conns = (conns, MsgOutcome.warning)) := by
  cases parsed with
  | error e =>
    constructor
    · constructor
      · intro h
        simp [onMessage, onMessageTry, isBroadcastOutcome] at h
      · rintro ⟨msg, hmsg, -⟩
        exact absurd hmsg (by simp)
    · intro msg hmsg
      exact absurd hmsg (by simp)
  | ok msg =>
    by_cases hnull : jsIsNull msg = true
    · have hmsgnull : msg = Json.null := by
        cases msg <;> simp [jsIsNull] at hnull ⊢
      subst hmsgnull
      constructor
      · constructor
        · intro h
          simp [onMessage, onMessageTry, jsIsNull, isBroadcastOutcome] at h
        · rintro ⟨msg', hmsg', hne, -⟩
          exact absurd (Except.ok.inj hmsg').symm hne
      · intro msg' hmsg' hne
        exact absurd (Except.ok.inj hmsg').symm hne
    · rw [Bool.not_eq_true] at hnull
      have hne : msg ≠ Json.null := jsIsNull_eq_false.mp hnull
      cases hdata : jsGet msg "data" with
      | none =>
        constructor
        · constructor
          · intro h
            simp [onMessage, onMessageTry, hnull, hdata, isBroadcastOutcome] at h
          · rintro ⟨msg', hmsg', -, -, htr⟩
            rw [← Except.ok.inj hmsg', hdata] at htr
            exact absurd htr (by simp [jsTruthy])
        · intro msg' hmsg' hne' hcond
          simp [onMessage, onMessageTry, hnull, hdata]
      | some d =>
        by_cases hcond : (isSendAction (jsGet msg "action") && jsTruthy (some d)) = true
        · rw [Bool.and_eq_true] at hcond
          constructor
          · constructor
            · intro h
              exact ⟨msg, rfl, hne, hcond.1, by rw [hdata]; exact hcond.2⟩
            · intro h
              simp [onMessage, onMessageTry, hnull, hdata, Bool.and_eq_true,
                hcond.1, hcond.2, isBroadcastOutcome]
          · intro msg' hmsg' hne' hcond'
            rw [← Except.ok.inj hmsg', hdata] at hcond'
            exact absurd ⟨hcond.1, hcond.2⟩ hcond'
        · rw [Bool.not_eq_true, Bool.and_eq_false_iff] at hcond
          constructor
          · constructor
            · intro h
              rcases hcond with hc | hc <;>
                simp [onMessage, onMessageTry, hnull, hdata, hc, isBroadcastOutcome] at h
            · rintro ⟨msg', hmsg', -, hact, htr⟩
              rw [← Except.ok.inj hmsg'] at hact htr
              rw [hdata] at htr
              rcases hcond with hc | hc
              · rw [hact] at hc; cases hc
              · rw [htr] at hc; cases hc
          · intro msg' hmsg' hne' hcond'
            rcases hcond with hc | hc <;>
              simp [onMessage, onMessageTry, hnull, hdata, hc]

/-- Witness for the amended C3: an envelope with `action: "unknown"` is
dropped with a warning and leaves the registry unchanged. -/
theorem sendmessage_requires_truthy_data_witness :
    onMessage
        (Except.ok (Json.obj [("action", Json.str "unknown"), ("data", Json.str "x")]))
        [(1, WS.mk 1 false)] = ([(1, WS.mk 1 false)], MsgOutcome.warning) :=
  (sendmessage_requires_truthy_data
      (Except.ok (Json.obj [("action", Json.str "unknown"), ("data", Json.str "x")]))
      [(1, WS.mk 1 false)]).2
    (Json.obj [("action", Json.str "unknown"), ("data", Json.str "x")]) rfl
    (fun h => Json.noConfusion h) (by decide)

/-- C4: a frame that is not valid JSON, or whose parsed value is missing the
`action` or `data` field, leaves the registry exactly as it was, sends no
frame to any connection, and triggers no broadcast — the error path is
contained in the handler (the receiving connection is neither errored nor
removed). -/
theorem malformed_frame_noop (parsed : Except String Json) (conns : List (Nat × WS))
    (h : (∃ e, parsed = Except.error e) ∨
      ∃ msg, parsed = Except.ok msg ∧
        (jsGet msg "action" = none ∨ jsGet msg "data" = none)) :
    (onMessage parsed conns).1 = conns ∧
    outcomeFrames (onMessage parsed conns).2 = [] ∧
    isBroadcastOutcome (onMessage parsed conns).2 = false := by
  rcases h with ⟨e, rfl⟩ | ⟨msg, rfl, hfield⟩
  · exact ⟨rfl, rfl, rfl⟩
  · by_cases hnull : jsIsNull msg = true
    · simp [onMessage, onMessageTry, hnull, outcomeFrames, isBroadcastOutcome]
    · rw [Bool.not_eq_true] at hnull
      rcases hfield with ha | hd
      · cases hdata : jsGet msg "data" with
        | none =>
          simp [onMessage, onMessageTry, hnull, hdata, outcomeFrames, isBroadcastOutcome]
        | some d =>
          simp [onMessage, onMessageTry, hnull, hdata, ha, isSendAction,
            outcomeFrames, isBroadcastOutcome]
      · simp [onMessage, onMessageTry, hnull, hd, outcomeFrames, isBroadcastOutcome]

/-- Witness for C4: a raw frame that fails `JSON.parse` is a no-op on a
concrete one-entry registry. -/
theorem malformed_frame_noop_witness :
    (onMessage (Except.error "SyntaxError") [(1, WS.mk 1 false)]).1 = [(1, WS.mk 1 false)] ∧
    outcomeFrames (onMessage (Except.error "SyntaxError") [(1, WS.mk 1 false)]).2 = [] :=
  ⟨(malformed_frame_noop (Except.error "SyntaxError") [(1, WS.mk 1 false)]
      (Or.inl ⟨"SyntaxError", rfl⟩)).1,
   (malformed_frame_noop (Except.error "SyntaxError") [(1, WS.mk 1 false)]
      (Or.inl ⟨"SyntaxError", rfl⟩)).2.1⟩

/-- C5: an open transport whose `send` throws during a broadcast is counted
as a failure, stays in the registry after the pass, and the broadcast still
delivers the payload to every other open, sendable peer. -/
theorem send_failure_peer_retained (P : Json) (conns : List (Nat × WS)) (id : Nat) (ws : WS)
    (hmem : (id, ws) ∈ conns) (hopen : ws.readyState = wsOPEN) (hfail : ws.sendFails = true) :
    (id, ws) ∈ (broadcast P conns).connections ∧
    1 ≤ (broadcast P conns).failCount ∧
    (∀ id2 ws2, (id2, ws2) ∈ conns → id2 ≠ id → ws2.readyState = wsOPEN →
      ws2.sendFails = false → (id2, P) ∈ (broadcast P conns).sentFrames) := by
  rw [broadcast_eq]
  refine ⟨?_, ?_, ?_⟩
  · rw [List.mem_filter]
    exact ⟨hmem, by simp [isOpen, hopen]⟩
  · refine List.length_pos_of_mem (a := (id, ws)) ?_
    rw [List.mem_filter]
    exact ⟨hmem, by simp [sendSucceeds, isOpen, hopen, hfail]⟩
  · intro id2 ws2 hm2 hne ho2 hs2
    refine List.mem_map.mpr ⟨(id2, ws2), ?_, rfl⟩
    rw [List.mem_filter]
    exact ⟨hm2, by simp [sendSucceeds, isOpen, ho2, hs2]⟩

/-- Witness for C5: with client 1 open but failing to send and client 2
healthy, client 1 stays registered, a failure is counted, and client 2 still
receives the payload. -/
theorem send_failure_peer_retained_witness :
    (1, WS.mk 1 true) ∈ (broadcast (Json.str "m") [(1, WS.mk 1 true), (2, WS.mk 1 false)]).connections ∧
    1 ≤ (broadcast (Json.str "m") [(1, WS.mk 1 true), (2, WS.mk 1 false)]).failCount ∧
    (2, Json.str "m") ∈ (broadcast (Json.str "m") [(1, WS.mk 1 true), (2, WS.mk 1 false)]).sentFrames :=
  ⟨(send_failure_peer_retained (Json.str "m") [(1, WS.mk 1 true), (2, WS.mk 1 false)]
      1 (WS.mk 1 true) (by decide) rfl rfl).1,
   (send_failure_peer_retained (Json.str "m") [(1, WS.mk 1 true), (2, WS.mk 1 false)]
      1 (WS.mk 1 true) (by decide) rfl rfl).2.1,
   (send_failure_peer_retained (Json.str "m") [(1, WS.mk 1 true), (2, WS.mk 1 false)]
      1 (WS.mk 1 true) (by decide) rfl rfl).2.2 2 (WS.mk 1 false) (by decide) (by decide) rfl rfl⟩

/-- C6 counterexample: in a registry of two open clients where client 1's
`send` throws, the pass leaves client 1 registered (it is NOT deregistered),
while the broadcast did continue and deliver to client 2. -/
theorem send_failure_deregistered_counterexample :
    (broadcast (Json.str "hi") [(1, WS.mk 1 true), (2, WS.mk 1 false)]).connections
        = [(1, WS.mk 1 true), (2, WS.mk 1 false)] ∧
    (broadcast (Json.str "hi") [(1, WS.mk 1 true), (2, WS.mk 1 false)]).sentFrames
        = [(2, Json.str "hi")] ∧
    (broadcast (Json.str "hi") [(1, WS.mk 1 true), (2, WS.mk 1 false)]).failCount = 1 :=
  ⟨rfl, rfl, rfl⟩

/-- C6 (amended): a per-peer send failure during a broadcast does not
deregister that peer — every open transport, the failing one included, is
still registered after the pass — and the broadcast continues: every other
peer whose send goes through receives the payload. -/
theorem send_failure_broadcast_continues (P : Json) (conns : List (Nat × WS))
    (id : Nat) (ws : WS)
    (_hmem : (id, ws) ∈ conns) (_hopen : ws.readyState = wsOPEN)
    (_hfail : ws.sendFails = true) :
    (∀ p ∈ conns, p.2.readyState = wsOPEN → p ∈ (broadcast P conns).connections) ∧
    (∀ p ∈ conns, sendSucceeds p.2 = true → (p.1, P) ∈ (broadcast P conns).sentFrames) := by
  rw [broadcast_eq]
  refine ⟨?_, ?_⟩
  · intro p hp hpopen
    rw [List.mem_filter]
    exact ⟨hp, by simp [isOpen, hpopen]⟩
  · intro p hp hs
    exact List.mem_map.mpr ⟨p, List.mem_filter.mpr ⟨hp, hs⟩, rfl⟩

/-- Witness for the amended C6: client 5's send throws, yet it remains
registered and client 6 still receives the payload. -/
theorem send_failure_broadcast_continues_witness :
    (5, WS.mk 1 true) ∈ (broadcast (Json.str "w") [(5, WS.mk 1 true), (6, WS.mk 1 false)]).connections ∧
    (6, Json.str "w") ∈ (broadcast (Json.str "w") [(5, WS.mk 1 true), (6, WS.mk 1 false)]).sentFrames :=
  ⟨(send_failure_broadcast_continues (Json.str "w") [(5, WS.mk 1 true), (6, WS.mk 1 false)]
      5 (WS.mk 1 true) (by decide) rfl rfl).1 (5, WS.mk 1 true) (by decide) rfl,
   (send_failure_broadcast_continues (Json.str "w") [(5, WS.mk 1 true), (6, WS.mk 1 false)]
      5 (WS.mk 1 true) (by decide) rfl rfl).2 (6, WS.mk 1 false) (by decide) rfl⟩

/-- Accepting a sequence of transports appends fresh, consecutive keys after
the existing ones and advances the id counter by the number of accepts. -/
theorem acceptAll_spec (wss : List WS) (st : ServerState) :
    (acceptAll wss st).connections.map Prod.fst
        = st.connections.map Prod.fst
          ++ List.range' (st.connectionIdCounter + 1) wss.length ∧
    (acceptAll wss st).connectionIdCounter = st.connectionIdCounter + wss.length := by
  induction wss generalizing st with
  | nil => simp [acceptAll]
  | cons w rest ih =>
    have hstep : acceptAll (w :: rest) st = acceptAll rest ((onConnection w st).1) := rfl
    rw [hstep]
    obtain ⟨h1, h2⟩ := ih ((onConnection w st).1)
    constructor
    · rw [h1]
      simp only [onConnection, List.map_append, List.map_cons, List.map_nil,
        List.length_cons]
      rw [List.append_assoc, List.singleton_append, List.range'_succ]
    · rw [h2]
      simp only [onConnection, List.length_cons]
      omega

/-- C7: accepting N connections from process start (with no closes) yields a
registry of size N whose assigned identifiers are exactly 1, 2, …, N — in
particular pairwise distinct and monotonically increasing from 1 — and
leaves the id counter at N, so no identifier is ever reused later in the
process lifetime. -/
theorem registration_assigns_fresh_ids (wss : List WS) :
    (acceptAll wss initialState).connections.length = wss.length ∧
    (acceptAll wss initialState).connections.map Prod.fst = List.range' 1 wss.length ∧
    ((acceptAll wss initialState).connections.map Prod.fst).Nodup ∧
    (acceptAll wss initialState).connectionIdCounter = wss.length := by
  obtain ⟨h1, h2⟩ := acceptAll_spec wss initialState
  rw [show initialState.connectionIdCounter = 0 from rfl] at h1 h2
  rw [show initialState.connections = ([] : List (Nat × WS)) from rfl] at h1
  simp only [List.map_nil, List.nil_append, Nat.zero_add] at h1 h2
  refine ⟨?_, h1, ?_, h2⟩
  · have hlen := congrArg List.length h1
    simpa using hlen
  · rw [h1]
    exact List.nodup_range' 1 wss.length
/-- In a registry with `Nodup` keys, exactly one entry carries a present key. -/
theorem filter_key_eq {conns : List (Nat × WS)} {id : Nat} {ws : WS}
    (hnodup : (conns.map Prod.fst).Nodup) (hmem : (id, ws) ∈ conns) :
    conns.filter (fun p => (p.1 = id : Bool)) = [(id, ws)] := by
  induction conns with
  | nil => cases hmem
  | cons hd tl ih =>
    simp only [List.map_cons, List.nodup_cons] at hnodup
    rcases List.mem_cons.mp hmem with heq | htl
    · have hv : hd = (id, ws) := heq.symm
      have hidnot : id ∉ tl.map Prod.fst := by
        rw [← show hd.1 = id from by rw [hv]]
        exact hnodup.1
      have htlnil : tl.filter (fun p => (p.1 = id : Bool)) = [] := by
        rw [List.filter_eq_nil_iff]
        intro p hp hpk
        exact hidnot (List.mem_map.mpr ⟨p, hp, by simpa using hpk⟩)
      rw [hv, List.filter_cons, if_pos (by simp), htlnil]
    · have hk : hd.1 ≠ id := by
        intro hkid
        apply hnodup.1
        rw [hkid]
        exact List.mem_map.mpr ⟨(id, ws), htl, rfl⟩
      rw [List.filter_cons, if_neg (by simp [hk])]
      exact ih hnodup.2 htl

/-- The close handler's filter and the key's own entries split a registry. -/
theorem filter_key_not_length (id : Nat) (l : List (Nat × WS)) :
    (l.filter (fun p => !(p.1 = id : Bool))).length
        + (l.filter (fun p => (p.1 = id : Bool))).length = l.length := by
  induction l with
  | nil => rfl
  | cons hd tl ih =>
    by_cases h : hd.1 = id
    · rw [List.filter_cons, List.filter_cons, if_neg (by simp [h]), if_pos (by simp [h])]
      simp only [List.length_cons]
      omega
    · rw [List.filter_cons, List.filter_cons, if_pos (by simp [h]), if_neg (by simp [h])]
      simp only [List.length_cons]
      omega

/-- C8: the close handler removes exactly the entry of the closing id when
present — every other entry survives unchanged, and the registry shrinks by
one — it is a no-op when that id is already absent, it never fails (removal
is idempotent), and the error handler performs the very same removal. -/
theorem close_removes_exactly (conns : List (Nat × WS)) (id : Nat)
    (hnodup : (conns.map Prod.fst).Nodup) :
    (∀ p ∈ conns, p.1 ≠ id → p ∈ onClose id conns) ∧
    (∀ p ∈ onClose id conns, p ∈ conns ∧ p.1 ≠ id) ∧
    (∀ ws, (id, ws) ∈ conns → (onClose id conns).length + 1 = conns.length) ∧
    ((∀ p ∈ conns, p.1 ≠ id) → onClose id conns = conns) ∧
    onWsError id conns = onClose id conns ∧
    onClose id (onClose id conns) = onClose id conns := by
  refine ⟨?_, ?_, ?_, ?_, rfl, ?_⟩
  · intro p hp hne
    simp only [onClose, List.mem_filter]
    exact ⟨hp, by simp [hne]⟩
  · intro p hp
    simp only [onClose, List.mem_filter] at hp
    refine ⟨hp.1, ?_⟩
    simpa using hp.2
  · intro ws hmem
    have hone : conns.filter (fun p => (p.1 = id : Bool)) = [(id, ws)] :=
      filter_key_eq hnodup hmem
    have hsplit := filter_key_not_length id conns
    have h1 := congrArg List.length hone
    simp only [List.length_singleton] at h1
    show (conns.filter (fun p => !(p.1 = id : Bool))).length + 1 = conns.length
    omega
  · intro hall
    show conns.filter (fun p => !(p.1 = id : Bool)) = conns
    rw [List.filter_eq_self]
    intro p hp
    simp [hall p hp]
  · have hsub : ∀ p ∈ onClose id conns, (!(p.1 = id : Bool)) = true := by
      intro p hp
      simp only [onClose, List.mem_filter] at hp
      exact hp.2
    show (onClose id conns).filter (fun p => !(p.1 = id : Bool)) = onClose id conns
    exact List.filter_eq_self.mpr hsub

/-- Witness for C8: closing connection 2 out of registry {1, 2} shrinks it to
one entry, and repeating the removal changes nothing. -/
theorem close_removes_exactly_witness :
    (onClose 2 [(1, WS.mk 1 false), (2, WS.mk 2 false)]).length + 1 = 2 ∧
    onClose 2 (onClose 2 [(1, WS.mk 1 false), (2, WS.mk 2 false)])
        = onClose 2 [(1, WS.mk 1 false), (2, WS.mk 2 false)] :=
  ⟨(close_removes_exactly [(1, WS.mk 1 false), (2, WS.mk 2 false)] 2 (by decide)).2.2.1
      (WS.mk 2 false) (by decide),
   (close_removes_exactly [(1, WS.mk 1 false), (2, WS.mk 2 false)] 2 (by decide)).2.2.2.2.2⟩

/-- Helper: a Boolean predicate on the transport splits a registry's length. -/
theorem filter_snd_not_length (f : WS → Bool) (l : List (Nat × WS)) :
    (l.filter (fun p => f p.2)).length + (l.filter (fun p => !f p.2)).length = l.length := by
  induction l with
  | nil => rfl
  | cons hd tl ih =>
    by_cases h : f hd.2 = true
    · rw [List.filter_cons, List.filter_cons, if_pos (by simpa using h), if_neg (by simp [h])]
      simp only [List.length_cons]
      omega
    · rw [Bool.not_eq_true] at h
      rw [List.filter_cons, List.filter_cons, if_neg (by simp [h]), if_pos (by simp [h])]
      simp only [List.length_cons]
      omega

/-- C9: over a registry of N entries of which k transports are open, when no
send to an open transport throws, the summary log line of the pass reports
success = k and failure = N − k (the counters also always total N). -/
theorem broadcast_summary_counts (P : Json) (conns : List (Nat × WS))
    (hok : ∀ p ∈ conns, p.2.readyState = wsOPEN → p.2.sendFails = false) :
    (broadcast P conns).successCount = (conns.filter (fun p => isOpen p.2)).length ∧
    (broadcast P conns).failCount
        = conns.length - (conns.filter (fun p => isOpen p.2)).length ∧
    (broadcast P conns).successCount + (broadcast P conns).failCount = conns.length := by
  have hcong : conns.filter (fun p => sendSucceeds p.2)
      = conns.filter (fun p => isOpen p.2) := by
    apply List.filter_congr
    intro p hp
    by_cases h : isOpen p.2 = true
    · have hsf : p.2.sendFails = false := hok p hp (by simpa [isOpen] using h)
      simp [sendSucceeds, h, hsf]
    · rw [Bool.not_eq_true] at h
      simp [sendSucceeds, h]
  have hadd := filter_snd_not_length sendSucceeds conns
  rw [broadcast_eq]
  refine ⟨?_, ?_, ?_⟩
  · show (conns.filter (fun p => sendSucceeds p.2)).length = _
    rw [hcong]
  · show (conns.filter (fun p => !sendSucceeds p.2)).length = _
    rw [hcong] at hadd
    omega
  · show (conns.filter (fun p => sendSucceeds p.2)).length
        + (conns.filter (fun p => !sendSucceeds p.2)).length = conns.length
    omega

/-- Witness for C9 at the spec's scenarios: three open clients give
success=3, failure=0; two open plus one closed give success=2, failure=1. -/
theorem broadcast_summary_counts_witness :
    (broadcast (Json.str "hello")
        [(1, WS.mk 1 false), (2, WS.mk 1 false), (3, WS.mk 1 false)]).successCount = 3 ∧
    (broadcast (Json.str "hello")
        [(1, WS.mk 1 false), (2, WS.mk 1 false), (3, WS.mk 1 false)]).failCount = 0 ∧
    (broadcast (Json.str "hi")
        [(1, WS.mk 1 false), (2, WS.mk 1 false), (3, WS.mk 3 false)]).successCount = 2 ∧
    (broadcast (Json.str "hi")
        [(1, WS.mk 1 false), (2, WS.mk 1 false), (3, WS.mk 3 false)]).failCount = 1 :=
  ⟨(broadcast_summary_counts (Json.str "hello")
      [(1, WS.mk 1 false), (2, WS.mk 1 false), (3, WS.mk 1 false)] (by decide)).1,
   (broadcast_summary_counts (Json.str "hello")
      [(1, WS.mk 1 false), (2, WS.mk 1 false), (3, WS.mk 1 false)] (by decide)).2.1,
   (broadcast_summary_counts (Json.str "hi")
      [(1, WS.mk 1 false), (2, WS.mk 1 false), (3, WS.mk 3 false)] (by decide)).1,
   (broadcast_summary_counts (Json.str "hi")
      [(1, WS.mk 1 false), (2, WS.mk 1 false), (3, WS.mk 3 false)] (by decide)).2.1⟩

/-- C10: for every inbound frame — non-JSON, or parsing to any JSON value
whatsoever, objects, `null`, numbers and bare strings included — the message
handler returns normally (anything thrown inside the `try` body is caught,
yielding an untouched registry), and the handler never inserts an entry into
the registry: everything registered afterwards was registered before. -/
theorem message_handler_safe (parsed : Except String Json) (conns : List (Nat × WS)) :
    (∀ p ∈ (onMessage parsed conns).1, p ∈ conns) ∧
    (onMessage parsed conns).1.length ≤ conns.length ∧
    (exceptOk (onMessageTry parsed conns) = false →
      onMessage parsed conns = (conns, MsgOutcome.thrown)) := by
  cases parsed with
  | error e => exact ⟨fun p hp => hp, le_refl _, fun _ => rfl⟩
  | ok msg =>
    by_cases hnull : jsIsNull msg = true
    · have he : onMessage (Except.ok msg) conns = (conns, MsgOutcome.thrown) := by
        simp [onMessage, onMessageTry, hnull]
      rw [he]
      exact ⟨fun p hp => hp, le_refl _, fun _ => rfl⟩
    · rw [Bool.not_eq_true] at hnull
      cases hdata : jsGet msg "data" with
      | none =>
        have he : onMessage (Except.ok msg) conns = (conns, MsgOutcome.warning) := by
          simp [onMessage, onMessageTry, hnull, hdata]
        have hok : exceptOk (onMessageTry (Except.ok msg) conns) = true := by
          simp [onMessageTry, hnull, hdata, exceptOk]
        rw [he]
        refine ⟨fun p hp => hp, le_refl _, fun hko => ?_⟩
        rw [hok] at hko
        cases hko
      | some d =>
        by_cases hcond : (isSendAction (jsGet msg "action") && jsTruthy (some d)) = true
        · have he : onMessage (Except.ok msg) conns
              = ((broadcast d conns).connections,
                 MsgOutcome.broadcasted (broadcast d conns).successCount
                   (broadcast d conns).failCount (broadcast d conns).sentFrames) := by
            simp [onMessage, onMessageTry, hnull, hdata, hcond]
          have hok : exceptOk (onMessageTry (Except.ok msg) conns) = true := by
            simp [onMessageTry, hnull, hdata, hcond, exceptOk]
          rw [he]
          refine ⟨?_, ?_, fun hko => ?_⟩
          · intro p hp
            rw [broadcast_eq] at hp
            exact (List.mem_filter.mp hp).1
          · rw [broadcast_eq]
            exact List.length_filter_le _ _
          · rw [hok] at hko
            cases hko
        · rw [Bool.not_eq_true] at hcond
          have he : onMessage (Except.ok msg) conns = (conns, MsgOutcome.warning) := by
            simp [onMessage, onMessageTry, hnull, hdata, hcond]
          have hok : exceptOk (onMessageTry (Except.ok msg) conns) = true := by
            simp [onMessageTry, hnull, hdata, hcond, exceptOk]
          rw [he]
          refine ⟨fun p hp => hp, le_refl _, fun hko => ?_⟩
          rw [hok] at hko
          cases hko

/-- Witness for C10: a frame parsing to the bare number 5 leaves the
registered entry registered, and a frame parsing to `null` is caught and
returns normally with the registry untouched. -/
theorem message_handler_safe_witness :
    (1, WS.mk 1 false) ∈ (onMessage (Except.ok (Json.num 5)) [(1, WS.mk 1 false)]).1 ∧
    onMessage (Except.ok Json.null) [(2, WS.mk 1 false)]
        = ([(2, WS.mk 1 false)], MsgOutcome.thrown) :=
  ⟨(message_handler_safe (Except.ok (Json.num 5)) [(1, WS.mk 1 false)]).1
      (1, WS.mk 1 false) (List.mem_cons_self _ _),
   (message_handler_safe (Except.ok Json.null) [(2, WS.mk 1 false)]).2.2 rfl⟩
